import Mathlib

/-!
Verification development for the GitHub template API backend (`app.py`).

The module embeds the data model and the operations of the Flask service as
pure Lean functions: provider HTTP responses become explicit arguments (a
successful JSON payload or a transport exception), `datetime.now()` readings
become natural-number timestamps, and the module-level `repo_cache` dict
becomes an explicit state value threaded through the listing handler.
-/

namespace GithubTemplateApi

/-- One entry of the JSON array returned by the provider REST listing endpoint
(`response.json()` in `GitHubService.fetch_repositories`), restricted to the
fields the service reads. `description`, `language` and `homepage` are nullable
in the provider JSON, hence `Option`. `priv` models the JSON key `private`
(a Lean keyword). -/
structure RawRepo where
  id : Nat
  name : String
  full_name : String
  description : Option String
  html_url : String
  clone_url : String
  language : Option String
  stargazers_count : Nat
  forks_count : Nat
  created_at : String
  updated_at : String
  pushed_at : String
  topics : List String
  fork : Bool
  priv : Bool
  homepage : Option String
  archived : Bool
deriving DecidableEq

/-- The normalized `repo_data` dict built inside
`GitHubService.fetch_repositories`. Note the REST path stores no fork flag. -/
structure RepoData where
  id : Nat
  name : String
  full_name : String
  description : Option String
  url : String
  clone_url : String
  language : Option String
  stars : Nat
  forks : Nat
  created_at : String
  updated_at : String
  pushed_at : String
  topics : List String
  is_private : Bool
  homepage : Option String
  archived : Bool
deriving DecidableEq

/-- Field extraction of the `repo_data` dict from a raw listing entry
(the assignments at the end of the filtering loop). -/
def toRepoData (r : RawRepo) : RepoData :=
  { id := r.id
    name := r.name
    full_name := r.full_name
    description := r.description
    url := r.html_url
    clone_url := r.clone_url
    language := r.language
    stars := r.stargazers_count
    forks := r.forks_count
    created_at := r.created_at
    updated_at := r.updated_at
    pushed_at := r.pushed_at
    topics := r.topics
    is_private := r.priv
    homepage := r.homepage
    archived := r.archived }

/-- Failures escaping `GitHubService.fetch_repositories`: the wrapped
transport failure re-raised as `Exception("Failed to fetch repositories: ...")`
on `requests.exceptions.RequestException`, and the uncaught `AttributeError`
from `None.lower()` when a null `language` meets a truthy language filter. -/
inductive FetchError where
  | upstreamFailure (msg : String)
  | noneTypeHasNoLower
deriving DecidableEq

/-- The `str(e)` text the handler serializes into the `error` field. -/
def FetchError.message : FetchError → String
  | .upstreamFailure m => "Failed to fetch repositories: " ++ m
  | .noneTypeHasNoLower => "NoneType object has no attribute lower"

/-- Outcome of `requests.get(...)` plus `raise_for_status()` on the listing
endpoint: the parsed JSON array, or a `RequestException` with its message
(transport failure or non-2xx status). -/
inductive ListingUpstream where
  | ok (repos : List RawRepo)
  | exn (msg : String)
deriving DecidableEq

/-- Python `str.lower()`: lower-case every character, implemented over the
character list so that concrete instances compute by reduction. -/
def pyLower (s : String) : String := ⟨s.data.map Char.toLower⟩

/-- Python truthiness of the `filter_languages` argument (`if filter_languages:`):
`None` and the empty list are falsy. -/
def langFilterTruthy : Option (List String) → Bool
  | none => false
  | some l => !l.isEmpty

/-- One iteration of the filtering loop in `fetch_repositories`:
`ok none` is `continue`, `ok (some d)` appends `d`, and a null `language`
meeting a truthy filter raises (`repo.get("language")` is `None`, so
`.lower()` fails before the membership test can drop the entry). -/
def filterStep (filter_forks : Bool) (filter_languages : Option (List String))
    (repo : RawRepo) : Except FetchError (Option RepoData) :=
  if filter_forks && repo.fork then .ok none
  else if langFilterTruthy filter_languages then
    match repo.language with
    | none => .error .noneTypeHasNoLower
    | some lang =>
      if ((filter_languages.getD []).map pyLower).contains (pyLower lang) then
        .ok (some (toRepoData repo))
      else .ok none
  else .ok (some (toRepoData repo))

/-- The filtering loop of `fetch_repositories` over the raw listing, in order;
an exception at any entry aborts the whole call. -/
def fetchFilter (filter_forks : Bool) (filter_languages : Option (List String)) :
    List RawRepo → Except FetchError (List RepoData)
  | [] => .ok []
  | r :: rs =>
    match filterStep filter_forks filter_languages r with
    | .error e => .error e
    | .ok none => fetchFilter filter_forks filter_languages rs
    | .ok (some d) =>
      match fetchFilter filter_forks filter_languages rs with
      | .error e => .error e
      | .ok tl => .ok (d :: tl)

/-- `GitHubService.fetch_repositories`. `upstream` is the provider response to
the single REST call this invocation makes; `sort` is forwarded inside the
request parameters (it selects the provider-side ordering) and plays no role
in the local filtering. -/
def GitHubService.fetch_repositories (upstream : ListingUpstream)
    (filter_forks : Bool) (filter_languages : Option (List String))
    (sort : String) : Except FetchError (List RepoData) :=
  match upstream with
  | .exn msg => .error (.upstreamFailure msg)
  | .ok repos => fetchFilter filter_forks filter_languages repos

/-- The module-level `repo_cache` dict: `data` (a list or `None`),
`last_updated` (a `datetime` reading or `None`), and the fixed
`cache_duration` TTL, all in one time unit. -/
structure RepoCache where
  data : Option (List RepoData)
  last_updated : Option Nat
  cache_duration : Nat
deriving DecidableEq

/-- `is_cache_valid`, evaluated at time `now`. Python truthiness: `None` and
the empty list are falsy, so an empty cached list invalidates the cache. -/
def is_cache_valid (c : RepoCache) (now : Nat) : Bool :=
  match c.data, c.last_updated with
  | none, _ => false
  | some _, none => false
  | some d, some t =>
    if d.isEmpty then false else decide (now - t < c.cache_duration)

/-- Parsed query parameters of `/api/repositories`. `languages` is `none` when
the parameter is absent or empty (the handler turns it into Python `None`),
otherwise the comma-split list; `limit` is `none` when absent. -/
structure ListReq where
  include_forks : Bool
  languages : Option (List String)
  sort : String
  limit : Option Int
  force_refresh : Bool
deriving DecidableEq

/-- The guarded slice `if limit and limit > 0: repos = repos[:limit]`
(Python `None` and `0` are falsy; a non-positive limit leaves the list
untouched). -/
def applyLimit (limit : Option Int) (repos : List RepoData) : List RepoData :=
  match limit with
  | none => repos
  | some l => if l > 0 then repos.take l.toNat else repos

/-- JSON body of a successful `/api/repositories` response. -/
structure ListBody where
  repositories : List RepoData
  count : Nat
  cached : Bool
  last_updated : Option Nat
deriving DecidableEq

/-- Observable outcome of one `/api/repositories` request: HTTP status, the
success body or the `{error}` text, the cache state after the request, and how
many upstream listing calls the request issued. -/
structure ListOutcome where
  status : Nat
  body : Option ListBody
  error : Option String
  cache : RepoCache
  upstream_calls : Nat
deriving DecidableEq

/-- The route handler `get_repositories` for `/api/repositories`.
`configured` is whether `github_service` was constructed; `upstream` is the
provider response the service receives if this request fetches; `now` stands
for every `datetime.now()` reading inside the request (they coincide at the
model's time resolution). The `cached` response field is computed after the
cache update, exactly as in the source, and the handler catches every
exception from the fetch as a 500 with `str(e)`. -/
def get_repositories (configured : Bool) (upstream : ListingUpstream)
    (cache : RepoCache) (now : Nat) (req : ListReq) : ListOutcome :=
  if !configured then
    { status := 500, body := none
      error := some "GitHub service not configured. Please set GITHUB_TOKEN and GITHUB_USERNAME environment variables."
      cache := cache, upstream_calls := 0 }
  else if !req.force_refresh && is_cache_valid cache now then
    let repos := cache.data.getD []
    let limited := applyLimit req.limit repos
    { status := 200
      body := some
        { repositories := limited, count := limited.length
          cached := !req.force_refresh && is_cache_valid cache now
          last_updated := cache.last_updated }
      error := none, cache := cache, upstream_calls := 0 }
  else
    match GitHubService.fetch_repositories upstream (!req.include_forks)
        req.languages req.sort with
    | .error e =>
      { status := 500, body := none, error := some e.message
        cache := cache, upstream_calls := 1 }
    | .ok repos =>
      let cache1 : RepoCache :=
        { data := some repos, last_updated := some now
          cache_duration := cache.cache_duration }
      let limited := applyLimit req.limit repos
      { status := 200
        body := some
          { repositories := limited, count := limited.length
            cached := !req.force_refresh && is_cache_valid cache1 now
            last_updated := cache1.last_updated }
        error := none, cache := cache1, upstream_calls := 1 }

/-- Provider response to the per-repository languages REST call: the
language-to-byte-count JSON object (as an association list preserving the
provider order), or a `RequestException`. -/
inductive LanguagesUpstream where
  | ok (langs : List (String × Nat))
  | exn (msg : String)
deriving DecidableEq

/-- `GitHubService.get_repository_languages`: returns the parsed JSON object,
and degrades to an empty mapping on any `RequestException`. -/
def GitHubService.get_repository_languages (up : LanguagesUpstream)
    (repo_name : String) : List (String × Nat) :=
  match up with
  | .ok l => l
  | .exn _ => []

/-- Parsed JSON of the provider README endpoint, restricted to the fields the
service reads; `content` is the base64-encoded payload when present. -/
structure ReadmeJson where
  path : Option String
  size : Option Nat
  content : Option String
  download_url : Option String
deriving DecidableEq

/-- Outcome of the README REST call: parsed JSON or a `RequestException`
(transport failure, or a 404 turned into an exception by
`raise_for_status`). -/
inductive ReadmeUpstream where
  | ok (d : ReadmeJson)
  | exn (msg : String)
deriving DecidableEq

/-- The README record the service returns: `content` is the decoded text. -/
structure ReadmeData where
  path : Option String
  size : Option Nat
  content : String
  download_url : Option String
deriving DecidableEq

/-- `GitHubService.get_repository_readme`. `decode` stands for
`base64.b64decode(content_base64).decode("utf-8")`, the transport decoding
applied to the `content` field. Returns `none` both when the JSON carries no
`content` key and on a `RequestException`. -/
def GitHubService.get_repository_readme (decode : String → String)
    (up : ReadmeUpstream) (repo_name : String) : Option ReadmeData :=
  match up with
  | .exn _ => none
  | .ok d =>
    match d.content with
    | none => none
    | some c => some ⟨d.path, d.size, decode c, d.download_url⟩

/-- JSON body of a `/api/repositories/{name}/readme` response (both the 200
shape and the 404 shape, which adds `message` and nulls `readme`). -/
structure ReadmeBody where
  repository : String
  readme : Option ReadmeData
  message : Option String
deriving DecidableEq

/-- HTTP outcome of a handler that returns a status and either a JSON body or
an `{error}` text. -/
structure SimpleOutcome (β : Type) where
  status : Nat
  body : Option β
  error : Option String
deriving DecidableEq

/-- The route handler for `/api/repositories/{name}/readme`. A returned dict
is always non-empty, so Python truthiness of `readme_data` coincides with
`isSome`. -/
def get_repository_readme (configured : Bool) (decode : String → String)
    (up : ReadmeUpstream) (repo_name : String) : SimpleOutcome ReadmeBody :=
  if !configured then ⟨500, none, some "GitHub service not configured"⟩
  else
    match GitHubService.get_repository_readme decode up repo_name with
    | some rd => ⟨200, some ⟨repo_name, some rd, none⟩, none⟩
    | none => ⟨404, some ⟨repo_name, none, some "README not found or not accessible"⟩, none⟩

/-- One repository node of the GraphQL `pinnedItems` response, with the nested
edge lists flattened: `primaryLanguage` is `(name, color)` when non-null,
`languageEdges` the `(name, size)` pairs in response order, `topicNames` the
topic names in response order. -/
structure PinnedNode where
  id : String
  name : String
  nameWithOwner : String
  description : Option String
  url : String
  homepageUrl : Option String
  stargazerCount : Nat
  forkCount : Nat
  isPrivate : Bool
  isFork : Bool
  isArchived : Bool
  createdAt : String
  updatedAt : String
  pushedAt : String
  primaryLanguage : Option (String × Option String)
  languageEdges : List (String × Nat)
  topicNames : List String
deriving DecidableEq

/-- Outcome of the GraphQL POST: a successful response with the pinned edges,
a response whose body carries an `errors` list (for example a token
permissions error), or a `RequestException`. -/
inductive GraphQLUpstream where
  | ok (edges : List PinnedNode)
  | errors (msgs : List String)
  | exn (msg : String)
deriving DecidableEq

/-- The normalized `repo_data` dict built in
`GitHubService.get_pinned_repositories` (GraphQL path: has `is_fork`,
`languages` and `language_color`, lacks `clone_url`). -/
structure PinnedRepoData where
  id : String
  name : String
  full_name : String
  description : Option String
  url : String
  homepage : Option String
  language : Option String
  language_color : Option String
  stars : Nat
  forks : Nat
  created_at : String
  updated_at : String
  pushed_at : String
  topics : List String
  languages : List (String × Nat)
  is_private : Bool
  is_fork : Bool
  archived : Bool
  is_pinned : Bool
deriving DecidableEq

/-- Per-node normalization inside the GraphQL response loop. -/
def pinnedNodeToRepo (n : PinnedNode) : PinnedRepoData :=
  { id := n.id
    name := n.name
    full_name := n.nameWithOwner
    description := n.description
    url := n.url
    homepage := n.homepageUrl
    language := n.primaryLanguage.map Prod.fst
    language_color := n.primaryLanguage.bind Prod.snd
    stars := n.stargazerCount
    forks := n.forkCount
    created_at := n.createdAt
    updated_at := n.updatedAt
    pushed_at := n.pushedAt
    topics := n.topicNames
    languages := n.languageEdges
    is_private := n.isPrivate
    is_fork := n.isFork
    archived := n.isArchived
    is_pinned := true }

/-- `GitHubService.get_pinned_repositories`: empty on a `RequestException`,
empty when the response body carries an `errors` list (after logging),
otherwise the normalized nodes in response order. -/
def GitHubService.get_pinned_repositories (up : GraphQLUpstream) :
    List PinnedRepoData :=
  match up with
  | .exn _ => []
  | .errors _ => []
  | .ok edges => edges.map pinnedNodeToRepo

/-- Python `s or default` for a nullable string: `None` and `""` are falsy. -/
def pyOrElse (s : Option String) (dflt : String) : String :=
  match s with
  | none => dflt
  | some t => if t = "" then dflt else t

/-- Display shape the `/api/pinned` handler builds per repository. -/
structure PinnedDisplay where
  name : String
  description : String
  url : String
  homepage : Option String
  language : Option String
  language_color : Option String
  stars : Nat
  forks : Nat
  topics : List String
  languages : List (String × Nat)
  last_updated : String
  is_pinned : Bool
deriving DecidableEq

/-- JSON body of a successful `/api/pinned` response. -/
structure PinnedBody where
  pinned_repositories : List PinnedDisplay
  count : Nat
deriving DecidableEq

/-- The route handler for `/api/pinned`. -/
def get_pinned_repositories (configured : Bool) (up : GraphQLUpstream) :
    SimpleOutcome PinnedBody :=
  if !configured then ⟨500, none, some "GitHub service not configured"⟩
  else
    let formatted := (GitHubService.get_pinned_repositories up).map fun repo =>
      { name := repo.name
        description := pyOrElse repo.description "No description available"
        url := repo.url
        homepage := repo.homepage
        language := repo.language
        language_color := repo.language_color
        stars := repo.stars
        forks := repo.forks
        topics := repo.topics
        languages := repo.languages
        last_updated := repo.updated_at
        is_pinned := true }
    ⟨200, some ⟨formatted, formatted.length⟩, none⟩

/-- Sort key of the featured sort: the Python tuple
`(r["stars"], r["updated_at"])`, with the ISO timestamp compared as a
string. -/
def featuredKey (r : RepoData) : Nat × String := (r.stars, r.updated_at)

/-- Strict lexicographic comparison of code-point sequences, the order Python
uses on strings; implemented structurally so concrete instances compute. -/
def pyCharListLT : List Char → List Char → Bool
  | [], [] => false
  | [], _ :: _ => true
  | _ :: _, [] => false
  | a :: as, b :: bs =>
    if a.toNat < b.toNat then true
    else if b.toNat < a.toNat then false
    else pyCharListLT as bs

/-- Python `<` on strings (the `updated_at` comparison of the featured
sort). -/
def pyStrLT (a b : String) : Bool := pyCharListLT a.data b.data

/-- Python tuple `<=` on the sort key: lexicographic on the integer, then the
string, where `s <= t` on strings is the negation of `t < s`. -/
def keyLE (a b : Nat × String) : Prop :=
  a.1 < b.1 ∨ (a.1 = b.1 ∧ pyStrLT b.2 a.2 = false)

instance : DecidableRel keyLE := fun a b => by
  unfold keyLE; infer_instance

/-- Descending comparison used by `sorted(..., reverse=True)`: `a` may stand
before `b` iff the key of `b` is at most the key of `a`. A stable sort with
this relation is exactly Python descending sort. -/
def featuredGE (a b : RepoData) : Prop := keyLE (featuredKey b) (featuredKey a)

instance : DecidableRel featuredGE := fun a b => by
  unfold featuredGE; infer_instance

/-- Python list slice `xs[:stop]` for an integer `stop`: a negative `stop`
counts from the end, clamped at zero. -/
def pySliceTo {α : Type} (stop : Int) (xs : List α) : List α :=
  if 0 ≤ stop then xs.take stop.toNat else xs.take (xs.length - (-stop).toNat)

/-- Display shape the `/api/featured` handler builds per repository
(topics truncated to the first five). -/
structure FeaturedDisplay where
  name : String
  description : String
  url : String
  language : Option String
  stars : Nat
  topics : List String
  last_updated : String
deriving DecidableEq

/-- JSON body of a successful `/api/featured` response. -/
structure FeaturedBody where
  featured_repositories : List FeaturedDisplay
  count : Nat
deriving DecidableEq

/-- The route handler for `/api/featured`: fetches with `filter_forks=True`
and no language filter, sorts descending by `(stars, updated_at)` with
Python's stable sort, slices to `limit`, and reshapes. A fetch exception is
caught as a 500 with `str(e)`. -/
def get_featured_repositories (configured : Bool) (upstream : ListingUpstream)
    (limit : Int) : SimpleOutcome FeaturedBody :=
  if !configured then ⟨500, none, some "GitHub service not configured"⟩
  else
    match GitHubService.fetch_repositories upstream true none "updated" with
    | .error e => ⟨500, none, some e.message⟩
    | .ok repos =>
      let featured := pySliceTo limit (List.insertionSort featuredGE repos)
      let formatted := featured.map fun repo =>
        FeaturedDisplay.mk repo.name
          (pyOrElse repo.description "No description available") repo.url
          repo.language repo.stars (repo.topics.take 5) repo.updated_at
      ⟨200, some ⟨formatted, formatted.length⟩, none⟩

/-- Survival predicate of the filtering loop in `fetch_repositories`, for
entries that do not raise: an entry is kept iff it passes the fork filter and
the (case-insensitive) language filter. -/
def keepB (ff : Bool) (fl : Option (List String)) (r : RawRepo) : Bool :=
  if ff && r.fork then false
  else if langFilterTruthy fl then
    ((fl.getD []).map pyLower).contains (pyLower (r.language.getD ""))
  else true

/-- Modelled from the spec wording, for claim comparison only: "the request's
own filters applied to the snapshot". On a cached record only the language
filter is expressible (the REST-path record keeps no fork flag, so fork
exclusion is vacuous on a snapshot); the filter is case-insensitive as the
spec describes. -/
def spec_request_filters (req : ListReq) (snapshot : List RepoData) :
    List RepoData :=
  match req.languages with
  | none => snapshot
  | some fl =>
    if fl.isEmpty then snapshot
    else snapshot.filter fun r =>
      (fl.map pyLower).contains (pyLower (r.language.getD ""))

/-- Closed-form description of one loop iteration: it raises exactly when a
truthy language filter meets a null `language` on an entry the fork filter
did not already skip, and otherwise keeps the entry iff `keepB` holds. -/
theorem filterStep_eq (ff : Bool) (fl : Option (List String)) (r : RawRepo) :
    filterStep ff fl r =
      if langFilterTruthy fl = true ∧ (ff && r.fork) = false ∧ r.language = none
      then .error .noneTypeHasNoLower
      else .ok (if keepB ff fl r then some (toRepoData r) else none) := by
  unfold filterStep keepB
  cases hl : r.language <;> cases hf : ff && r.fork <;>
      cases ht : langFilterTruthy fl <;>
    simp [hl, hf, ht, apply_ite]

/-- A successful run of the filtering loop returns exactly the surviving raw
entries, in order, normalized by `toRepoData`. -/
theorem fetchFilter_ok {ff : Bool} {fl : Option (List String)} :
    ∀ {raws : List RawRepo} {l : List RepoData},
      fetchFilter ff fl raws = .ok l →
      l = (raws.filter (keepB ff fl)).map toRepoData := by
  intro raws
  induction raws with
  | nil =>
    intro l h
    injection h with h
    subst h
    rfl
  | cons r rs ih =>
    intro l h
    unfold fetchFilter at h
    by_cases hraise :
        langFilterTruthy fl = true ∧ (ff && r.fork) = false ∧ r.language = none
    · rw [filterStep_eq, if_pos hraise] at h
      exact absurd h (by simp)
    · by_cases hk : keepB ff fl r = true
      · rw [filterStep_eq, if_neg hraise, if_pos hk] at h
        cases htl : fetchFilter ff fl rs with
        | error e =>
          rw [htl] at h
          exact absurd h (by simp)
        | ok tl =>
          rw [htl] at h
          dsimp only at h
          injection h with h
          subst h
          simp [List.filter_cons, hk, ih htl]
      · rw [filterStep_eq, if_neg hraise, if_neg hk] at h
        dsimp only at h
        simp only [Bool.not_eq_true] at hk
        simp [List.filter_cons, hk, ih h]

/-- Without a language filter the loop never raises: it drops exactly the
fork entries (when asked) and normalizes the rest. -/
theorem fetchFilter_no_lang_filter (ff : Bool) :
    ∀ raws : List RawRepo,
      fetchFilter ff none raws =
        .ok (((raws.filter fun r => !(ff && r.fork))).map toRepoData) := by
  intro raws
  induction raws with
  | nil => rfl
  | cons r rs ih =>
    unfold fetchFilter
    rw [filterStep_eq]
    cases ff <;> cases hfk : r.fork <;>
      simp [langFilterTruthy, keepB, hfk, ih, List.filter_cons]

/-- With a truthy language filter, any entry whose `language` is null and
which survives the fork filter makes the whole loop raise the
`None.lower()` error. -/
theorem fetchFilter_error_of_null_language {ff : Bool} {fl : Option (List String)}
    {raws : List RawRepo} {r : RawRepo} (hmem : r ∈ raws)
    (hlang : r.language = none) (hfork : ff = true → r.fork = false)
    (htruthy : langFilterTruthy fl = true) :
    fetchFilter ff fl raws = .error .noneTypeHasNoLower := by
  induction raws with
  | nil => cases hmem
  | cons r0 rs ih =>
    unfold fetchFilter
    rw [filterStep_eq]
    rcases List.mem_cons.mp hmem with heq | hmem'
    · subst heq
      have hff : (ff && r.fork) = false := by
        cases hf : ff with
        | false => simp [hf]
        | true => simp [hf, hfork hf]
      rw [if_pos ⟨htruthy, hff, hlang⟩]
    · by_cases hraise :
          langFilterTruthy fl = true ∧ (ff && r0.fork) = false ∧ r0.language = none
      · rw [if_pos hraise]
      · by_cases hk : keepB ff fl r0 = true
        · rw [if_neg hraise, if_pos hk]
          dsimp only
          rw [ih hmem']
        · rw [if_neg hraise, if_neg hk]
          dsimp only
          exact ih hmem'

/-- Sample raw listing entry: a non-fork Python repository. -/
def rawPython : RawRepo :=
  { id := 1, name := "alpha", full_name := "me/alpha", description := some "demo"
    html_url := "https://example.test/alpha"
    clone_url := "https://example.test/alpha.git"
    language := some "Python", stargazers_count := 3, forks_count := 1
    created_at := "2023-01-01T00:00:00Z", updated_at := "2024-01-01T00:00:00Z"
    pushed_at := "2024-01-01T00:00:00Z", topics := ["web"], fork := false
    priv := false, homepage := none, archived := false }

/-- Sample raw listing entry: a non-fork Go repository. -/
def rawGo : RawRepo :=
  { id := 2, name := "beta", full_name := "me/beta", description := none
    html_url := "https://example.test/beta"
    clone_url := "https://example.test/beta.git"
    language := some "Go", stargazers_count := 7, forks_count := 0
    created_at := "2023-02-01T00:00:00Z", updated_at := "2024-02-01T00:00:00Z"
    pushed_at := "2024-02-01T00:00:00Z", topics := [], fork := false
    priv := false, homepage := none, archived := false }

/-- Sample raw listing entry: a fork whose `language` is null. -/
def rawForkNull : RawRepo :=
  { id := 3, name := "gamma", full_name := "me/gamma", description := none
    html_url := "https://example.test/gamma"
    clone_url := "https://example.test/gamma.git"
    language := none, stargazers_count := 0, forks_count := 0
    created_at := "2023-03-01T00:00:00Z", updated_at := "2024-03-01T00:00:00Z"
    pushed_at := "2024-03-01T00:00:00Z", topics := [], fork := true
    priv := false, homepage := none, archived := false }

/-- Sample raw listing entry: a non-fork repository whose `language` is null. -/
def rawNullLang : RawRepo :=
  { id := 4, name := "delta", full_name := "me/delta", description := none
    html_url := "https://example.test/delta"
    clone_url := "https://example.test/delta.git"
    language := none, stargazers_count := 2, forks_count := 0
    created_at := "2023-04-01T00:00:00Z", updated_at := "2024-04-01T00:00:00Z"
    pushed_at := "2024-04-01T00:00:00Z", topics := [], fork := false
    priv := false, homepage := none, archived := false }

/-- A plain request: defaults only, no filters, no force refresh. -/
def plainReq : ListReq :=
  { include_forks := false, languages := none, sort := "updated"
    limit := none, force_refresh := false }

/-- C4: for all `ttl` (the `cache_duration` of the cache value) and `now`,
`is_cache_valid` is true iff the cache holds a non-empty list and a timestamp
with `now - fetched_at < ttl`, and it is false at exactly
`now - fetched_at = ttl`: the boundary is exclusive. -/
theorem cache_validity_boundary (c : RepoCache) (now : Nat) :
    (is_cache_valid c now = true ↔
      ∃ d t, c.data = some d ∧ d ≠ [] ∧ c.last_updated = some t ∧
        now - t < c.cache_duration)
    ∧ (∀ t, c.last_updated = some t → now - t = c.cache_duration →
      is_cache_valid c now = false) := by
  constructor
  · rcases hd : c.data with _ | d
    · simp [is_cache_valid, hd]
    · rcases ht : c.last_updated with _ | t
      · simp [is_cache_valid, hd, ht]
      · by_cases hde : d = []
        · simp [is_cache_valid, hd, ht, hde]
        · simp [is_cache_valid, hd, ht, hde, List.isEmpty_iff]
  · intro t ht heq
    rcases hd : c.data with _ | d
    · simp [is_cache_valid, hd]
    · by_cases hde : d = []
      · simp [is_cache_valid, hd, ht, hde]
      · simp [is_cache_valid, hd, ht, hde, List.isEmpty_iff, heq]

theorem cache_validity_boundary_witness :
    is_cache_valid ⟨some [toRepoData rawPython], some 0, 1800⟩ 100 = true ∧
    is_cache_valid ⟨some [toRepoData rawPython], some 0, 1800⟩ 1800 = false :=
  ⟨(cache_validity_boundary ⟨some [toRepoData rawPython], some 0, 1800⟩ 100).1.mpr
      ⟨[toRepoData rawPython], 0, rfl, by decide, rfl, by decide⟩,
    (cache_validity_boundary ⟨some [toRepoData rawPython], some 0, 1800⟩ 1800).2 0
      rfl (by decide)⟩

/-- C3: when the listing fetch fails with the upstream failure during a
`/api/repositories` request (one that actually fetches: forced, or with an
invalid cache), the handler returns HTTP 500 with the error text, returns no
repository body (no stale fallback), and leaves the cache exactly as it
was. -/
theorem upstream_failure_preserves_cache (cache : RepoCache) (now : Nat)
    (req : ListReq) (msg : String)
    (hfetch : req.force_refresh = true ∨ is_cache_valid cache now = false) :
    (get_repositories true (.exn msg) cache now req).status = 500 ∧
    (get_repositories true (.exn msg) cache now req).error =
      some ("Failed to fetch repositories: " ++ msg) ∧
    (get_repositories true (.exn msg) cache now req).body = none ∧
    (get_repositories true (.exn msg) cache now req).cache = cache := by
  have hcond : (!req.force_refresh && is_cache_valid cache now) = false := by
    rcases hfetch with h | h <;> simp [h]
  simp [get_repositories, hcond, GitHubService.fetch_repositories,
    FetchError.message]

theorem upstream_failure_preserves_cache_witness :
    (get_repositories true (.exn "boom")
        ⟨some [toRepoData rawPython], some 0, 1800⟩ 2000 plainReq).status = 500 ∧
    (get_repositories true (.exn "boom")
        ⟨some [toRepoData rawPython], some 0, 1800⟩ 2000 plainReq).cache =
      ⟨some [toRepoData rawPython], some 0, 1800⟩ :=
  have h := upstream_failure_preserves_cache
    ⟨some [toRepoData rawPython], some 0, 1800⟩ 2000 plainReq "boom"
    (Or.inr (by decide))
  ⟨h.1, h.2.2.2⟩

/-- C5: with `force_refresh=true` the handler issues an upstream fetch no
matter what the cache holds, and on a successful fetch it overwrites both the
cached data and the timestamp with the new result and the current time. -/
theorem force_refresh_always_fetches (up : ListingUpstream) (cache : RepoCache)
    (now : Nat) (req : ListReq) (hforce : req.force_refresh = true) :
    (get_repositories true up cache now req).upstream_calls = 1 ∧
    ∀ repos,
      GitHubService.fetch_repositories up (!req.include_forks) req.languages
        req.sort = .ok repos →
      (get_repositories true up cache now req).cache =
        ⟨some repos, some now, cache.cache_duration⟩ := by
  have hcond : (!req.force_refresh && is_cache_valid cache now) = false := by
    simp [hforce]
  constructor
  · cases hfetch : GitHubService.fetch_repositories up (!req.include_forks)
        req.languages req.sort <;>
      simp [get_repositories, hcond, hfetch]
  · intro repos hrepos
    simp [get_repositories, hcond, hrepos]

theorem force_refresh_always_fetches_witness :
    (get_repositories true (.ok [rawGo])
        ⟨some [toRepoData rawPython], some 0, 1800⟩ 10
        ⟨false, none, "updated", none, true⟩).upstream_calls = 1 ∧
    (get_repositories true (.ok [rawGo])
        ⟨some [toRepoData rawPython], some 0, 1800⟩ 10
        ⟨false, none, "updated", none, true⟩).cache =
      ⟨some [toRepoData rawGo], some 10, 1800⟩ :=
  have h := force_refresh_always_fetches (.ok [rawGo])
    ⟨some [toRepoData rawPython], some 0, 1800⟩ 10
    ⟨false, none, "updated", none, true⟩ rfl
  ⟨h.1, h.2 [toRepoData rawGo] rfl⟩

/-- A request carrying a `languages=Rust` filter and nothing else. -/
def rustReq : ListReq :=
  { include_forks := false, languages := some ["Rust"], sort := "updated"
    limit := none, force_refresh := false }

/-- C1 counterexample: a first request with no language filter populates the
cache with the Python repository; a second request within the TTL asking for
`languages=Rust` is answered from the cache **without** re-filtering, so the
repositories it returns are not the request's own filters applied to the
snapshot in hand (which would be empty). -/
theorem cache_unfiltered_counterexample :
    ((get_repositories true (.ok [])
        (get_repositories true (.ok [rawPython]) ⟨none, none, 1800⟩ 0
          plainReq).cache
        5 rustReq).body.map ListBody.repositories) ≠
      some (spec_request_filters rustReq
        ((get_repositories true (.ok [rawPython]) ⟨none, none, 1800⟩ 0
          plainReq).cache.data.getD [])) := by
  have h1 : ((get_repositories true (.ok [])
      (get_repositories true (.ok [rawPython]) ⟨none, none, 1800⟩ 0
        plainReq).cache
      5 rustReq).body.map ListBody.repositories) =
      some [toRepoData rawPython] := rfl
  have h2 : spec_request_filters rustReq
      ((get_repositories true (.ok [rawPython]) ⟨none, none, 1800⟩ 0
        plainReq).cache.data.getD []) = [] := rfl
  rw [h1, h2]
  simp

/-- C1 amended: the cache stores the listing already filtered by the fetching
request's parameters, not the unfiltered provider listing; a request answered
from the cache gets the cached listing with only the limit applied (no
re-filtering), while a request that fetches applies its own filters upstream
of the cache write and the filtered result is what gets cached. -/
theorem cache_stores_filtered_listing (up : ListingUpstream)
    (cache : RepoCache) (now : Nat) (req : ListReq) :
    (req.force_refresh = false → is_cache_valid cache now = true →
      (get_repositories true up cache now req).body.map ListBody.repositories =
        some (applyLimit req.limit (cache.data.getD [])) ∧
      (get_repositories true up cache now req).cache = cache ∧
      (get_repositories true up cache now req).upstream_calls = 0)
    ∧ (∀ raws repos, up = .ok raws →
      (!req.force_refresh && is_cache_valid cache now) = false →
      GitHubService.fetch_repositories up (!req.include_forks) req.languages
        req.sort = .ok repos →
      repos = (raws.filter (keepB (!req.include_forks) req.languages)).map
        toRepoData ∧
      (get_repositories true up cache now req).cache =
        ⟨some repos, some now, cache.cache_duration⟩ ∧
      (get_repositories true up cache now req).body.map ListBody.repositories =
        some (applyLimit req.limit repos)) := by
  constructor
  · intro hfr hvalid
    refine ⟨?_, ?_, ?_⟩ <;> simp [get_repositories, hfr, hvalid]
  · intro raws repos hup hcond hfetch
    refine ⟨?_, ?_, ?_⟩
    · subst hup
      exact fetchFilter_ok
        (by simpa [GitHubService.fetch_repositories] using hfetch)
    · simp [get_repositories, hcond, hfetch]
    · simp [get_repositories, hcond, hfetch]

theorem cache_stores_filtered_listing_witness :
    (get_repositories true (.ok [])
        ⟨some [toRepoData rawPython], some 0, 1800⟩ 5 rustReq).body.map
      ListBody.repositories = some [toRepoData rawPython] := by
  have h := (cache_stores_filtered_listing (.ok [])
    ⟨some [toRepoData rawPython], some 0, 1800⟩ 5 rustReq).1 rfl (by decide)
  simpa [applyLimit] using h.1

/-- C2 counterexample: with a cold cache, two requests five time units apart
(well inside the 1800-unit TTL) and without `force_refresh` issue **two**
upstream fetches when the upstream listing is empty, because an empty cached
list never validates the cache. -/
theorem ttl_single_fetch_counterexample :
    (get_repositories true (.ok []) ⟨none, none, 1800⟩ 0
        plainReq).upstream_calls +
      (get_repositories true (.ok [])
        (get_repositories true (.ok []) ⟨none, none, 1800⟩ 0 plainReq).cache
        5 plainReq).upstream_calls = 2 := by
  decide

/-- C2 amended: starting from a cache that is invalid at the first request,
two `/api/repositories` requests within the TTL window and without
`force_refresh` issue exactly one upstream fetch — provided the first
request's fetch succeeds with a non-empty repository list. (If the fetch
fails, or succeeds with an empty list, the cache stays invalid and the
second request fetches again.) The second request is answered from the
freshly stored snapshot and leaves the cache untouched. -/
theorem ttl_single_fetch (cache0 : RepoCache) (t1 t2 : Nat)
    (req1 req2 : ListReq) (up1 up2 : ListingUpstream) (repos : List RepoData)
    (h1 : req1.force_refresh = false) (h2 : req2.force_refresh = false)
    (hmiss : is_cache_valid cache0 t1 = false)
    (hfetch : GitHubService.fetch_repositories up1 (!req1.include_forks)
      req1.languages req1.sort = .ok repos)
    (hne : repos ≠ [])
    (httl : t2 - t1 < cache0.cache_duration) :
    (get_repositories true up1 cache0 t1 req1).upstream_calls = 1 ∧
    (get_repositories true up2
      (get_repositories true up1 cache0 t1 req1).cache t2 req2).upstream_calls
        = 0 ∧
    (get_repositories true up2
        (get_repositories true up1 cache0 t1 req1).cache t2 req2).cache =
      (get_repositories true up1 cache0 t1 req1).cache ∧
    (get_repositories true up2
        (get_repositories true up1 cache0 t1 req1).cache t2 req2).body.map
      ListBody.repositories = some (applyLimit req2.limit repos) := by
  have hcond1 : (!req1.force_refresh && is_cache_valid cache0 t1) = false := by
    simp [hmiss]
  have hc1 : (get_repositories true up1 cache0 t1 req1).cache =
      ⟨some repos, some t1, cache0.cache_duration⟩ := by
    simp [get_repositories, hcond1, hfetch]
  have hvalid2 :
      is_cache_valid ⟨some repos, some t1, cache0.cache_duration⟩ t2 = true := by
    simp [is_cache_valid, List.isEmpty_iff, hne, httl]
  refine ⟨?_, ?_, ?_, ?_⟩
  · simp [get_repositories, hcond1, hfetch]
  · rw [hc1]; simp [get_repositories, h2, hvalid2]
  · rw [hc1]; simp [get_repositories, h2, hvalid2]
  · rw [hc1]; simp [get_repositories, h2, hvalid2]

theorem ttl_single_fetch_witness :
    (get_repositories true (.ok [rawPython]) ⟨none, none, 1800⟩ 0
        plainReq).upstream_calls = 1 ∧
    (get_repositories true (.ok [rawGo])
      (get_repositories true (.ok [rawPython]) ⟨none, none, 1800⟩ 0
        plainReq).cache 5 plainReq).upstream_calls = 0 :=
  have h := ttl_single_fetch ⟨none, none, 1800⟩ 0 5 plainReq plainReq
    (.ok [rawPython]) (.ok [rawGo]) [toRepoData rawPython] rfl rfl rfl rfl
    (by decide) (by decide)
  ⟨h.1, h.2.1⟩

/-- C9: for a `/api/repositories` request without `force_refresh` whose final
cache state (as just stored by this request, or as already cached) holds a
non-empty list with a timestamp inside the TTL, the response's `cached` field
is `true` — the field is computed from cache validity after the cache update,
so even a request that fetched fresh data reports `cached: true`. -/
theorem cached_flag_after_update (up : ListingUpstream) (cache : RepoCache)
    (now : Nat) (req : ListReq) (b : ListBody)
    (hfr : req.force_refresh = false)
    (hbody : (get_repositories true up cache now req).body = some b)
    (hdata : ∃ d, (get_repositories true up cache now req).cache.data = some d ∧
      d ≠ [])
    (ht : ∃ t,
      (get_repositories true up cache now req).cache.last_updated = some t ∧
      now - t <
        (get_repositories true up cache now req).cache.cache_duration) :
    b.cached = true := by
  by_cases hvalid : is_cache_valid cache now = true
  · have hb : (get_repositories true up cache now req).body =
        some { repositories := applyLimit req.limit (cache.data.getD [])
               count := (applyLimit req.limit (cache.data.getD [])).length
               cached := !req.force_refresh && is_cache_valid cache now
               last_updated := cache.last_updated } := by
      simp [get_repositories, hfr, hvalid]
    rw [hb] at hbody
    injection hbody with hbody
    subst hbody
    simp [hfr, hvalid]
  · have hvalid' : is_cache_valid cache now = false := by
      simpa using hvalid
    have hcond : (!req.force_refresh && is_cache_valid cache now) = false := by
      simp [hvalid']
    cases hfetch : GitHubService.fetch_repositories up (!req.include_forks)
        req.languages req.sort with
    | error e =>
      have : (get_repositories true up cache now req).body = none := by
        simp [get_repositories, hcond, hfetch]
      rw [this] at hbody
      exact absurd hbody (by simp)
    | ok repos =>
      have hcache : (get_repositories true up cache now req).cache =
          ⟨some repos, some now, cache.cache_duration⟩ := by
        simp [get_repositories, hcond, hfetch]
      obtain ⟨d, hd, hdne⟩ := hdata
      rw [hcache] at hd
      injection hd with hd
      subst hd
      obtain ⟨t, htu, hlt⟩ := ht
      rw [hcache] at htu hlt
      injection htu with htu
      subst htu
      have hvalid2 :
          is_cache_valid ⟨some repos, some now, cache.cache_duration⟩ now
            = true := by
        simp [is_cache_valid, List.isEmpty_iff, hdne]
        simpa using hlt
      have hb : (get_repositories true up cache now req).body =
          some { repositories := applyLimit req.limit repos
                 count := (applyLimit req.limit repos).length
                 cached := !req.force_refresh &&
                   is_cache_valid ⟨some repos, some now, cache.cache_duration⟩
                     now
                 last_updated := some now } := by
        simp [get_repositories, hcond, hfetch]
      rw [hb] at hbody
      injection hbody with hbody
      subst hbody
      simp [hfr, hvalid2]

theorem cached_flag_after_update_witness :
    (ListBody.mk [toRepoData rawPython] 1 true (some 7)).cached = true :=
  cached_flag_after_update (.ok [rawPython]) ⟨none, none, 1800⟩ 7 plainReq
    (ListBody.mk [toRepoData rawPython] 1 true (some 7)) rfl (by decide)
    ⟨[toRepoData rawPython], by decide, by decide⟩ ⟨7, by decide, by decide⟩

/-- A request carrying a `languages=Python` filter and nothing else. -/
def pythonReq : ListReq :=
  { include_forks := false, languages := some ["Python"], sort := "updated"
    limit := none, force_refresh := false }

/-- C10 counterexample: a listing whose only null-language repository is a
fork is processed without any error under a non-empty language filter (with
the handler's default fork exclusion), because the fork check skips the entry
before the language check can touch its null `language`; the handler answers
200, not 500. -/
theorem null_language_counterexample :
    GitHubService.fetch_repositories (.ok [rawForkNull]) true (some ["Python"])
      "updated" = .ok [] ∧
    (get_repositories true (.ok [rawForkNull]) ⟨none, none, 1800⟩ 0
      pythonReq).status = 200 := ⟨rfl, rfl⟩

/-- C10 amended: for every upstream listing containing at least one
repository whose `language` is null **and which the fork filter does not
skip** (it is not a fork, or forks are included), a fetch with a non-empty
language filter fails with the unhandled `None.lower()` error, which the
`/api/repositories` handler surfaces as HTTP 500; without a language filter
the same listing is processed successfully. (A null-language fork is skipped
by the fork check before the language check runs, so it causes no error.) -/
theorem null_language_filter_error :
    (∀ (raws : List RawRepo) (ff : Bool) (fl : List String) (s : String)
      (r : RawRepo),
      r ∈ raws → r.language = none → (ff = true → r.fork = false) →
      fl ≠ [] →
      GitHubService.fetch_repositories (.ok raws) ff (some fl) s =
        .error .noneTypeHasNoLower)
    ∧ (∀ (raws : List RawRepo) (ff : Bool) (s : String),
      GitHubService.fetch_repositories (.ok raws) ff none s =
        .ok ((raws.filter fun r => !(ff && r.fork)).map toRepoData))
    ∧ (∀ (raws : List RawRepo) (cache : RepoCache) (now : Nat) (req : ListReq)
      (r : RawRepo),
      (!req.force_refresh && is_cache_valid cache now) = false →
      r ∈ raws → r.language = none →
      (req.include_forks = false → r.fork = false) →
      (∃ fl, req.languages = some fl ∧ fl ≠ []) →
      (get_repositories true (.ok raws) cache now req).status = 500 ∧
      (get_repositories true (.ok raws) cache now req).error =
        some FetchError.noneTypeHasNoLower.message) := by
  have hmain : ∀ (raws : List RawRepo) (ff : Bool) (fl : List String)
      (s : String) (r : RawRepo),
      r ∈ raws → r.language = none → (ff = true → r.fork = false) →
      fl ≠ [] →
      GitHubService.fetch_repositories (.ok raws) ff (some fl) s =
        .error .noneTypeHasNoLower := by
    intro raws ff fl s r hmem hlang hfork hne
    unfold GitHubService.fetch_repositories
    exact fetchFilter_error_of_null_language hmem hlang hfork
      (by simp [langFilterTruthy, List.isEmpty_iff, hne])
  refine ⟨hmain, ?_, ?_⟩
  · intro raws ff s
    unfold GitHubService.fetch_repositories
    exact fetchFilter_no_lang_filter ff raws
  · intro raws cache now req r hcond hmem hlang hfork hfl
    obtain ⟨fl, hfleq, hflne⟩ := hfl
    have hfork2 : (!req.include_forks) = true → r.fork = false := by
      intro hff
      exact hfork (by simpa using hff)
    have hfetch : GitHubService.fetch_repositories (.ok raws)
        (!req.include_forks) req.languages req.sort =
        .error .noneTypeHasNoLower := by
      rw [hfleq]
      exact hmain raws (!req.include_forks) fl req.sort r hmem hlang hfork2
        hflne
    constructor <;> simp [get_repositories, hcond, hfetch]

theorem null_language_filter_error_witness :
    GitHubService.fetch_repositories (.ok [rawNullLang]) true (some ["Python"])
      "updated" = .error .noneTypeHasNoLower ∧
    (get_repositories true (.ok [rawNullLang]) ⟨none, none, 1800⟩ 0
      pythonReq).status = 500 :=
  ⟨(null_language_filter_error.1 [rawNullLang] true ["Python"] "updated"
      rawNullLang (by decide) rfl (fun _ => rfl) (by decide)),
    (null_language_filter_error.2.2 [rawNullLang] ⟨none, none, 1800⟩ 0
      pythonReq rawNullLang rfl (by decide) rfl (fun _ => rfl)
      ⟨["Python"], rfl, by decide⟩).1⟩

/-- C6: `get_repository_languages` degrades to an empty mapping on any
upstream failure, and `get_pinned_repositories` degrades to an empty sequence
both on a transport failure and when the GraphQL response carries an error
list (a permissions error included), so the `/api/pinned` handler answers
HTTP 200 with `count: 0` instead of an error. -/
theorem soft_fail_languages_and_pinned :
    (∀ (msg repo_name : String),
      GitHubService.get_repository_languages (.exn msg) repo_name = [])
    ∧ (∀ msg : String,
      GitHubService.get_pinned_repositories (.exn msg) = [] ∧
      get_pinned_repositories true (.exn msg) =
        ⟨200, some ⟨[], 0⟩, none⟩)
    ∧ (∀ msgs : List String,
      GitHubService.get_pinned_repositories (.errors msgs) = [] ∧
      get_pinned_repositories true (.errors msgs) =
        ⟨200, some ⟨[], 0⟩, none⟩) :=
  ⟨fun _ _ => rfl, fun _ => ⟨rfl, rfl⟩, fun _ => ⟨rfl, rfl⟩⟩

/-- C7: the README service returns an absent result both when the upstream
JSON reports no content and on a transport failure; the README handler maps
an absent result to HTTP 404 with a null `readme` and a message, and a
present result to HTTP 200 whose `readme.content` is the `content` field
passed through the transport decoding. -/
theorem readme_absent_and_present :
    (∀ (decode : String → String) (repo_name msg : String),
      GitHubService.get_repository_readme decode (.exn msg) repo_name = none)
    ∧ (∀ (decode : String → String) (repo_name : String) (d : ReadmeJson),
      d.content = none →
      GitHubService.get_repository_readme decode (.ok d) repo_name = none)
    ∧ (∀ (decode : String → String) (up : ReadmeUpstream) (repo_name : String),
      GitHubService.get_repository_readme decode up repo_name = none →
      get_repository_readme true decode up repo_name =
        ⟨404, some ⟨repo_name, none,
          some "README not found or not accessible"⟩, none⟩)
    ∧ (∀ (decode : String → String) (repo_name : String) (d : ReadmeJson)
      (c : String),
      d.content = some c →
      get_repository_readme true decode (.ok d) repo_name =
        ⟨200, some ⟨repo_name,
          some ⟨d.path, d.size, decode c, d.download_url⟩, none⟩, none⟩) := by
  refine ⟨fun _ _ _ => rfl, ?_, ?_, ?_⟩
  · intro decode repo_name d hc
    simp [GitHubService.get_repository_readme, hc]
  · intro decode up repo_name h
    simp [get_repository_readme, h]
  · intro decode repo_name d c hc
    simp [get_repository_readme, GitHubService.get_repository_readme, hc]

theorem readme_absent_and_present_witness :
    (get_repository_readme true (fun s => s)
        (.ok ⟨some "README.md", some 4, none, some "u"⟩) "alpha" =
      ⟨404, some ⟨"alpha", none, some "README not found or not accessible"⟩,
        none⟩)
    ∧ (get_repository_readme true (fun s => s)
        (.ok ⟨some "README.md", some 4, some "SGVsbG8=", some "u"⟩) "alpha" =
      ⟨200, some ⟨"alpha",
        some ⟨some "README.md", some 4, "SGVsbG8=", some "u"⟩, none⟩, none⟩) :=
  ⟨readme_absent_and_present.2.2.1 (fun s => s)
      (.ok ⟨some "README.md", some 4, none, some "u"⟩) "alpha"
      (readme_absent_and_present.2.1 (fun s => s) "alpha"
        ⟨some "README.md", some 4, none, some "u"⟩ rfl),
    readme_absent_and_present.2.2.2 (fun s => s) "alpha"
      ⟨some "README.md", some 4, some "SGVsbG8=", some "u"⟩ "SGVsbG8=" rfl⟩

theorem pyCharListLT_asymm : ∀ {x y : List Char},
    pyCharListLT x y = true → pyCharListLT y x = false
  | [], [] => by intro h; exact absurd h (by simp [pyCharListLT])
  | [], _ :: _ => by intro h; rfl
  | _ :: _, [] => by intro h; exact absurd h (by simp [pyCharListLT])
  | a :: as, b :: bs => by
    intro h
    unfold pyCharListLT at h ⊢
    by_cases hab : a.toNat < b.toNat
    · rw [if_neg (by omega), if_pos hab]
    · rw [if_neg hab] at h
      by_cases hba : b.toNat < a.toNat
      · rw [if_pos hba] at h
        exact absurd h (by simp)
      · rw [if_neg hba] at h
        rw [if_neg hba, if_neg hab]
        exact pyCharListLT_asymm h

theorem pyCharListLT_trans : ∀ {x y z : List Char},
    pyCharListLT x y = true → pyCharListLT y z = true →
    pyCharListLT x z = true
  | [], [], _ => by
    intro h _
    exact absurd h (by simp [pyCharListLT])
  | [], _ :: _, [] => by
    intro _ h
    exact absurd h (by simp [pyCharListLT])
  | [], _ :: _, _ :: _ => by intro _ _; rfl
  | _ :: _, [], _ => by
    intro h _
    exact absurd h (by simp [pyCharListLT])
  | _ :: _, _ :: _, [] => by
    intro _ h
    exact absurd h (by simp [pyCharListLT])
  | a :: as, b :: bs, c :: cs => by
    intro h1 h2
    unfold pyCharListLT at h1 h2 ⊢
    by_cases hab : a.toNat < b.toNat
    · by_cases hbc : b.toNat < c.toNat
      · rw [if_pos (by omega)]
      · rw [if_neg hbc] at h2
        by_cases hcb : c.toNat < b.toNat
        · rw [if_pos hcb] at h2
          exact absurd h2 (by simp)
        · rw [if_pos (by omega)]
    · rw [if_neg hab] at h1
      by_cases hba : b.toNat < a.toNat
      · rw [if_pos hba] at h1
        exact absurd h1 (by simp)
      · rw [if_neg hba] at h1
        by_cases hbc : b.toNat < c.toNat
        · rw [if_pos (by omega)]
        · rw [if_neg hbc] at h2
          by_cases hcb : c.toNat < b.toNat
          · rw [if_pos hcb] at h2
            exact absurd h2 (by simp)
          · rw [if_neg hcb] at h2
            rw [if_neg (by omega), if_neg (by omega)]
            exact pyCharListLT_trans h1 h2

/-- Two code-point sequences neither of which precedes the other compare the
same way against every third sequence. -/
theorem pyCharListLT_congr : ∀ {x y : List Char},
    pyCharListLT x y = false → pyCharListLT y x = false →
    ∀ w, pyCharListLT x w = pyCharListLT y w ∧
      pyCharListLT w x = pyCharListLT w y
  | [], [] => by intro _ _ w; exact ⟨rfl, rfl⟩
  | [], _ :: _ => by
    intro h _ _
    exact absurd h (by simp [pyCharListLT])
  | _ :: _, [] => by
    intro _ h _
    exact absurd h (by simp [pyCharListLT])
  | a :: as, b :: bs => by
    intro h1 h2 w
    unfold pyCharListLT at h1 h2
    by_cases hab : a.toNat < b.toNat
    · rw [if_pos hab] at h1
      exact absurd h1 (by simp)
    · rw [if_neg hab] at h1
      by_cases hba : b.toNat < a.toNat
      · rw [if_pos hba] at h2
        exact absurd h2 (by simp)
      · rw [if_neg hba] at h1
        rw [if_neg hba, if_neg hab] at h2
        have heq : a.toNat = b.toNat := by omega
        have ih := pyCharListLT_congr h1 h2
        cases w with
        | nil => exact ⟨rfl, rfl⟩
        | cons c cs =>
          constructor
          · show pyCharListLT (a :: as) (c :: cs) =
              pyCharListLT (b :: bs) (c :: cs)
            unfold pyCharListLT
            rw [heq, (ih cs).1]
          · show pyCharListLT (c :: cs) (a :: as) =
              pyCharListLT (c :: cs) (b :: bs)
            unfold pyCharListLT
            rw [heq, (ih cs).2]

theorem keyLE_total (x y : Nat × String) : keyLE x y ∨ keyLE y x := by
  unfold keyLE
  rcases lt_trichotomy x.1 y.1 with h | h | h
  · exact Or.inl (Or.inl h)
  · by_cases hs : pyStrLT y.2 x.2 = true
    · exact Or.inr (Or.inr ⟨h.symm, pyCharListLT_asymm hs⟩)
    · exact Or.inl (Or.inr ⟨h, by simpa using hs⟩)
  · exact Or.inr (Or.inl h)

theorem keyLE_trans {x y z : Nat × String} (h1 : keyLE x y) (h2 : keyLE y z) :
    keyLE x z := by
  unfold keyLE at h1 h2 ⊢
  rcases h1 with h1 | ⟨h1e, h1s⟩ <;> rcases h2 with h2 | ⟨h2e, h2s⟩
  · exact Or.inl (h1.trans h2)
  · exact Or.inl (lt_of_lt_of_le h1 (le_of_eq h2e))
  · exact Or.inl (lt_of_le_of_lt (le_of_eq h1e) h2)
  · refine Or.inr ⟨h1e.trans h2e, ?_⟩
    by_cases hzx : pyStrLT z.2 x.2 = true
    · by_cases hyz : pyStrLT y.2 z.2 = true
      · have hcontra : pyCharListLT y.2.data x.2.data = true :=
          pyCharListLT_trans hyz hzx
        rw [show pyStrLT y.2 x.2 = pyCharListLT y.2.data x.2.data from rfl,
          hcontra] at h1s
        exact absurd h1s (by simp)
      · have hyzf : pyCharListLT y.2.data z.2.data = false := by
          simpa [pyStrLT] using hyz
        have hcongr := pyCharListLT_congr h2s hyzf
        have hcontra : pyCharListLT y.2.data x.2.data = true := by
          rw [← (hcongr x.2.data).1]
          exact hzx
        rw [show pyStrLT y.2 x.2 = pyCharListLT y.2.data x.2.data from rfl,
          hcontra] at h1s
        exact absurd h1s (by simp)
    · simpa using hzx

instance : IsTotal RepoData featuredGE :=
  ⟨fun a b => keyLE_total (featuredKey b) (featuredKey a)⟩

instance : IsTrans RepoData featuredGE :=
  ⟨fun _ _ _ h1 h2 => keyLE_trans h2 h1⟩

/-- The descending `(stars, last_updated)` comparison, read off the response
shape the `/api/featured` handler emits. -/
def featuredDisplayGE (a b : FeaturedDisplay) : Prop :=
  keyLE (b.stars, b.last_updated) (a.stars, a.last_updated)

theorem pySliceTo_sublist {α : Type} (stop : Int) (xs : List α) :
    (pySliceTo stop xs).Sublist xs := by
  unfold pySliceTo
  split <;> exact List.take_sublist _ _

/-- Sample raw listing entry: non-fork, 5 stars, updated at `t1`. -/
def rawFiveT1 : RawRepo :=
  { id := 11, name := "a5t1", full_name := "me/a5t1", description := none
    html_url := "https://example.test/a5t1"
    clone_url := "https://example.test/a5t1.git"
    language := some "Python", stargazers_count := 5, forks_count := 0
    created_at := "2023-01-01T00:00:00Z", updated_at := "2024-01-01T00:00:00Z"
    pushed_at := "2024-01-01T00:00:00Z", topics := [], fork := false
    priv := false, homepage := none, archived := false }

/-- Sample raw listing entry: non-fork, 5 stars, updated at `t2 > t1`. -/
def rawFiveT2 : RawRepo :=
  { id := 12, name := "b5t2", full_name := "me/b5t2", description := none
    html_url := "https://example.test/b5t2"
    clone_url := "https://example.test/b5t2.git"
    language := some "Go", stargazers_count := 5, forks_count := 0
    created_at := "2023-01-01T00:00:00Z", updated_at := "2024-06-01T00:00:00Z"
    pushed_at := "2024-06-01T00:00:00Z", topics := [], fork := false
    priv := false, homepage := none, archived := false }

/-- Sample raw listing entry: non-fork, 1 star, updated at `t3` (latest). -/
def rawOneT3 : RawRepo :=
  { id := 13, name := "c1t3", full_name := "me/c1t3", description := none
    html_url := "https://example.test/c1t3"
    clone_url := "https://example.test/c1t3.git"
    language := some "Rust", stargazers_count := 1, forks_count := 0
    created_at := "2023-01-01T00:00:00Z", updated_at := "2024-12-31T00:00:00Z"
    pushed_at := "2024-12-31T00:00:00Z", topics := [], fork := false
    priv := false, homepage := none, archived := false }

/-- C8: every successful `/api/featured` response lists repositories sorted
descending by `(stars, updated_at)` — stars the primary key, recency the
tiebreak; the fetch behind it drops forks; and on the concrete stars
`[5, 5, 1]` instance with `t2 > t1` the record with stars 5 and `t2` sorts
before the one with stars 5 and `t1`, and both before the 1-star record,
truncated to the first `limit` entries. -/
theorem featured_sorting :
    (∀ (up : ListingUpstream) (limit : Int) (body : FeaturedBody),
      get_featured_repositories true up limit = ⟨200, some body, none⟩ →
      List.Sorted featuredDisplayGE body.featured_repositories)
    ∧ (∀ (raws : List RawRepo),
      GitHubService.fetch_repositories (.ok raws) true none "updated" =
        .ok ((raws.filter fun r => !r.fork).map toRepoData))
    ∧ ((get_featured_repositories true
        (.ok [rawFiveT1, rawFiveT2, rawOneT3]) 6).body.map
        (fun b => b.featured_repositories.map FeaturedDisplay.name) =
      some ["b5t2", "a5t1", "c1t3"]) := by
  refine ⟨?_, ?_, ?_⟩
  · intro up limit body h
    unfold get_featured_repositories at h
    cases hfetch : GitHubService.fetch_repositories up true none "updated" with
    | error e =>
      rw [hfetch] at h
      simp at h
    | ok repos =>
      rw [hfetch] at h
      simp only [Bool.not_true, Bool.false_eq_true, if_false,
        SimpleOutcome.mk.injEq, Option.some.injEq, true_and, and_true] at h
      subst h
      have hs : List.Sorted featuredGE (List.insertionSort featuredGE repos) :=
        List.sorted_insertionSort featuredGE repos
      have hsl : List.Sorted featuredGE
          (pySliceTo limit (List.insertionSort featuredGE repos)) :=
        List.Pairwise.sublist (pySliceTo_sublist limit _) hs
      exact List.pairwise_map.mpr (hsl.imp fun hab => hab)
  · intro raws
    unfold GitHubService.fetch_repositories
    have h := fetchFilter_no_lang_filter true raws
    simpa using h
  · rfl

theorem featured_sorting_witness :
    List.Sorted featuredDisplayGE
      [FeaturedDisplay.mk "b5t2" "No description available"
          "https://example.test/b5t2" (some "Go") 5 [] "2024-06-01T00:00:00Z",
        FeaturedDisplay.mk "a5t1" "No description available"
          "https://example.test/a5t1" (some "Python") 5 []
          "2024-01-01T00:00:00Z",
        FeaturedDisplay.mk "c1t3" "No description available"
          "https://example.test/c1t3" (some "Rust") 1 []
          "2024-12-31T00:00:00Z"] :=
  featured_sorting.1 (.ok [rawFiveT1, rawFiveT2, rawOneT3]) 6
    ⟨[FeaturedDisplay.mk "b5t2" "No description available"
        "https://example.test/b5t2" (some "Go") 5 [] "2024-06-01T00:00:00Z",
      FeaturedDisplay.mk "a5t1" "No description available"
        "https://example.test/a5t1" (some "Python") 5 []
        "2024-01-01T00:00:00Z",
      FeaturedDisplay.mk "c1t3" "No description available"
        "https://example.test/c1t3" (some "Rust") 1 []
        "2024-12-31T00:00:00Z"], 3⟩ rfl

end GithubTemplateApi
